import Mathlib

/-!
Shallow embedding of the sumflow reliable-delivery core: the transactional
outbox repository and relay (package `outbox`), the consumer-side dedup
repository (package `dedup`), the totals storage (package `storage`) and the
Kafka consumer/producer (packages `kafka` on both services).

Timestamps are modelled as natural numbers, event identifiers (UUIDs) as
natural numbers, databases as lists of rows, and the message log / database
fault behaviour as explicit oracle parameters.  Every definition mirrors a
function of the Go source; theorems at the end settle the specification
claims against these definitions.
-/

namespace Sumflow

/-! Payloads.  `SumCalculatedPayload` mirrors the struct of the same name;
an opaque payload blob either decodes as one (json.Unmarshal succeeds) or
fails to decode. -/

structure SumCalculatedPayload where
  x : Int
  y : Int
  result : Int
deriving Repr, DecidableEq

inductive Payload
  | sum (p : SumCalculatedPayload)
  | undecodable
deriving Repr, DecidableEq

/-! Outbox rows (table `outbox`, struct `outbox.Event`). -/

structure OutboxEvent where
  id : Nat
  aggregateType : String
  aggregateId : String
  eventType : String
  payload : Payload
  createdAt : Nat
  publishedAt : Option Nat
  retryCount : Nat
  lastError : Option String
deriving Repr, DecidableEq

abbrev OutboxDb := List OutboxEvent

/-- Repository.InsertInTx: INSERT INTO outbox (aggregate_type, aggregate_id,
event_type, payload, created_at); `published_at` defaults to NULL,
`retry_count` to 0, `last_error` to NULL, the id is database-generated. -/
def InsertInTx (db : OutboxDb) (newId : Nat) (aggregateType aggregateId eventType : String)
    (payload : Payload) (createdAt : Nat) : OutboxDb :=
  db ++ [{ id := newId, aggregateType := aggregateType, aggregateId := aggregateId,
           eventType := eventType, payload := payload, createdAt := createdAt,
           publishedAt := none, retryCount := 0, lastError := none }]

/-- Repository.FetchUnpublished: SELECT ... WHERE published_at IS NULL
ORDER BY created_at ASC LIMIT $1 FOR UPDATE SKIP LOCKED. -/
def FetchUnpublished (db : OutboxDb) (limit : Nat) : List OutboxEvent :=
  ((db.filter (fun r => r.publishedAt = none)).insertionSort
      (fun a b => a.createdAt ≤ b.createdAt)).take limit

/-- Repository.MarkPublished: UPDATE outbox SET published_at = $1 WHERE id = $2,
where $1 is time.Now().UTC() taken when MarkPublished runs. -/
def MarkPublished (db : OutboxDb) (id : Nat) (now : Nat) : OutboxDb :=
  db.map (fun r => if r.id = id then { r with publishedAt := some now } else r)

/-- Repository.MarkFailed: UPDATE outbox SET retry_count = retry_count + 1,
last_error = $1 WHERE id = $2.  The error message is stored as passed. -/
def MarkFailed (db : OutboxDb) (id : Nat) (errMsg : String) : OutboxDb :=
  db.map (fun r =>
    if r.id = id then { r with retryCount := r.retryCount + 1, lastError := some errMsg }
    else r)

/-- Row predicate of Repository.CleanupOldEvents: published_at IS NOT NULL
AND published_at < cutoff. -/
def cleanupDeletes (cutoff : Nat) (r : OutboxEvent) : Bool :=
  match r.publishedAt with
  | some t => t < cutoff
  | none => false

/-- Repository.CleanupOldEvents: DELETE FROM outbox WHERE published_at IS NOT
NULL AND published_at < now − retention; returns the surviving table and the
affected row count. -/
def CleanupOldEvents (db : OutboxDb) (now retention : Nat) : OutboxDb × Nat :=
  let cutoff := now - retention
  (db.filter (fun r => ! cleanupDeletes cutoff r), (db.filter (cleanupDeletes cutoff)).length)

/-! The Kafka producer (adder side).  `PublishEvent` sets `published_at`
on the in-memory event to the current instant, serialises it, and writes
to the log; the log write succeeds or fails per the `ok` oracle. -/

structure WireMessage where
  key : String
  eventId : Nat
  aggregateType : String
  eventType : String
  payload : Payload
  createdAt : Nat
  publishedAt : Option Nat
deriving Repr, DecidableEq

/-- Serialisation of an outbox event to the wire (Event.ToJSON): the JSON
carries the event fields, `retry_count` and `last_error` are never
serialised, and the message key is the aggregate id. -/
def toWire (e : OutboxEvent) : WireMessage :=
  { key := e.aggregateId, eventId := e.id, aggregateType := e.aggregateType,
    eventType := e.eventType, payload := e.payload, createdAt := e.createdAt,
    publishedAt := e.publishedAt }

/-- KafkaProducer.PublishEvent: set `published_at := now` on the in-memory
event, serialise, write to the log.  Returns the mutated in-memory event,
the message the log received (if the write succeeded) and the error flag. -/
def PublishEvent (e : OutboxEvent) (now : Nat) (writeOk : Bool) :
    OutboxEvent × Option WireMessage × Bool :=
  let eMut := { e with publishedAt := some now }
  (eMut, if writeOk then some (toWire eMut) else none, writeOk)

/-! The relay (outbox.Relay.processBatch).  The environment supplies, per
event id, the log-write outcome, the error message of a failed write, and
the two `time.Now()` readings (one inside PublishEvent, one inside
MarkPublished). -/

structure RelayEnv where
  pubOk : Nat → Bool
  errMsg : Nat → String
  pubTime : Nat → Nat
  markTime : Nat → Nat

structure RelayConfig where
  batchSize : Nat
  maxRetries : Nat
deriving Repr, DecidableEq

structure BatchState where
  db : OutboxDb
  published : List WireMessage
  attempts : List Nat
deriving Repr, DecidableEq

/-- One iteration of the loop body of Relay.processBatch over a fetched
event: skip if the retry budget is exhausted, otherwise publish; on failure
MarkFailed and continue, on success MarkPublished. -/
def processRow (env : RelayEnv) (maxRetries : Nat) (acc : BatchState) (e : OutboxEvent) :
    BatchState :=
  if maxRetries ≤ e.retryCount then acc
  else
    let step := PublishEvent e (env.pubTime e.id) (env.pubOk e.id)
    if step.2.2 then
      { db := MarkPublished acc.db e.id (env.markTime e.id),
        published := acc.published ++ step.2.1.toList,
        attempts := acc.attempts ++ [e.id] }
    else
      { db := MarkFailed acc.db e.id (env.errMsg e.id),
        published := acc.published,
        attempts := acc.attempts ++ [e.id] }

/-- Relay.processBatch: fetch a batch of unpublished rows and run the loop
body over each in order. -/
def processBatch (env : RelayEnv) (cfg : RelayConfig) (db : OutboxDb) : BatchState :=
  (FetchUnpublished db cfg.batchSize).foldl (processRow env cfg.maxRetries)
    { db := db, published := [], attempts := [] }

/-! The consumer (totalizer side).  `ConsEvent` mirrors the kafka.Event the
consumer decodes; a fetched message either fails to unmarshal as an event
envelope or yields one. -/

structure ConsEvent where
  eventID : Nat
  aggregateType : String
  aggregateId : String
  eventType : String
  payload : Payload
  createdAt : Nat
  publishedAt : Option Nat
deriving Repr, DecidableEq

inductive ConsMessage
  | malformed
  | valid (e : ConsEvent)
deriving Repr, DecidableEq

/-- Consumer-database state: the single totals row (T) and the set of
event ids recorded in `processed_events`. -/
structure ConsState where
  total : Int
  dedup : List Nat
deriving Repr, DecidableEq

/-- The kafka_messages_consumed counters the consumer increments, by
status label. -/
structure Counters where
  success : Nat
  error : Nat
  duplicate : Nat
deriving Repr, DecidableEq

/-- Fault oracle for one processMessage call: which database round-trips
fail with a transient error. -/
structure DbFaults where
  beginFails : Bool
  dedupExecFails : Bool
  applyFails : Bool
  commitFails : Bool
  offsetCommitFails : Bool
deriving Repr, DecidableEq

def DbFaults.none : DbFaults :=
  { beginFails := false, dedupExecFails := false, applyFails := false,
    commitFails := false, offsetCommitFails := false }

/-- Result of dedup.Repository.CheckAndMarkInTx inside the open
transaction. -/
inductive DedupResult
  | marked (pending : List Nat)
  | alreadyProcessed
  | execError
deriving Repr, DecidableEq

/-- dedup.Repository.CheckAndMarkInTx: INSERT INTO processed_events ...
ON CONFLICT (event_id) DO NOTHING.  An existing row affects zero rows and
yields ErrEventAlreadyProcessed (the sentinel) with the transaction still
live; a fresh row becomes a pending insert of the transaction. -/
def CheckAndMarkInTx (dedup : List Nat) (eventID : Nat) (execFails : Bool) : DedupResult :=
  if execFails then .execError
  else if eventID ∈ dedup then .alreadyProcessed
  else .marked (eventID :: dedup)

inductive HandleResult
  | applied (delta : Int)
  | failed
deriving Repr, DecidableEq

/-- Consumer.handleSumCalculated: unmarshal the payload as
SumCalculatedPayload (an undecodable payload returns the unmarshal error),
then storage.AddToTotalInTx adds payload.Result to the totals row inside
the transaction. -/
def handleSumCalculated (e : ConsEvent) (f : DbFaults) : HandleResult :=
  match e.payload with
  | .undecodable => .failed
  | .sum p => if f.applyFails then .failed else .applied p.result

/-- Consumer.handleEvent: dispatch on event_type; unknown types log and
no-op (return nil). -/
def handleEvent (e : ConsEvent) (f : DbFaults) : HandleResult :=
  if e.eventType = "sum.calculated" then handleSumCalculated e f
  else .applied 0

/-- Observable outcome of one Consumer.processMessage call.  `ok` is
whether the call returned nil; `txCommitted` whether tx.Commit ran and
succeeded (otherwise the deferred tx.Rollback discarded the pending
writes); `txOpened` whether pool.Begin was reached and succeeded. -/
structure ProcOutcome where
  ok : Bool
  state : ConsState
  counters : Counters
  txOpened : Bool
  txCommitted : Bool
deriving Repr, DecidableEq

/-- Consumer.processMessage, lines 143–221 of the consumer source:
unmarshal (poison path returns nil with no transaction), Begin,
CheckAndMarkInTx (sentinel path returns nil before Commit, so the deferred
Rollback runs), handleEvent, Commit; every error path returns the error
with the transaction rolled back. -/
def processMessage (st : ConsState) (m : ConsMessage) (f : DbFaults) (c : Counters) :
    ProcOutcome :=
  match m with
  | .malformed =>
      { ok := true, state := st, counters := { c with error := c.error + 1 },
        txOpened := false, txCommitted := false }
  | .valid e =>
      if f.beginFails then
        { ok := false, state := st, counters := { c with error := c.error + 1 },
          txOpened := false, txCommitted := false }
      else
        match CheckAndMarkInTx st.dedup e.eventID f.dedupExecFails with
        | .alreadyProcessed =>
            { ok := true, state := st,
              counters := { c with duplicate := c.duplicate + 1 },
              txOpened := true, txCommitted := false }
        | .execError =>
            { ok := false, state := st, counters := { c with error := c.error + 1 },
              txOpened := true, txCommitted := false }
        | .marked pending =>
            match handleEvent e f with
            | .failed =>
                { ok := false, state := st,
                  counters := { c with error := c.error + 1 },
                  txOpened := true, txCommitted := false }
            | .applied delta =>
                if f.commitFails then
                  { ok := false, state := st,
                    counters := { c with error := c.error + 1 },
                    txOpened := true, txCommitted := false }
                else
                  { ok := true,
                    state := { total := st.total + delta, dedup := pending },
                    counters := { c with success := c.success + 1 },
                    txOpened := true, txCommitted := true }

/-- Outcome of one iteration of Consumer.consumeLoop after a successful
fetch: processMessage, then CommitMessages only when it returned nil. -/
structure LoopOutcome where
  state : ConsState
  counters : Counters
  offsetCommitted : Bool
  procOk : Bool
  txOpened : Bool
  txCommitted : Bool
deriving Repr, DecidableEq

/-- One iteration of Consumer.consumeLoop on a fetched message: on a
processMessage error the offset is not committed and the message will be
redelivered; otherwise CommitMessages commits the offset (its own failure
is only logged). -/
def consumeStep (st : ConsState) (m : ConsMessage) (f : DbFaults) (c : Counters) :
    LoopOutcome :=
  let o := processMessage st m f c
  { state := o.state, counters := o.counters,
    offsetCommitted := o.ok && !f.offsetCommitFails,
    procOk := o.ok, txOpened := o.txOpened, txCommitted := o.txCommitted }

/-- Repeated redelivery of one message: the loop refetches and reprocesses
the same message n times (as happens when its offset is never committed). -/
def redeliver (st : ConsState) (m : ConsMessage) (f : DbFaults) (c : Counters) :
    Nat → ConsState × Counters
  | 0 => (st, c)
  | n + 1 =>
      let o := consumeStep st m f c
      redeliver o.state m f o.counters n

/-- A whole consumer run over a sequence of fetched messages, each with its
own fault oracle. -/
def consumeRun (st : ConsState) (ms : List (ConsMessage × DbFaults)) (c : Counters) :
    ConsState × Counters :=
  ms.foldl (fun acc mf =>
    let o := consumeStep acc.1 mf.1 mf.2 acc.2
    (o.state, o.counters)) (st, c)

/-! Helper lemmas about the consumer. -/

lemma consumeStep_state (st : ConsState) (m : ConsMessage) (f : DbFaults) (c : Counters) :
    (consumeStep st m f c).state = (processMessage st m f c).state := rfl

lemma consumeStep_counters (st : ConsState) (m : ConsMessage) (f : DbFaults) (c : Counters) :
    (consumeStep st m f c).counters = (processMessage st m f c).counters := rfl

lemma consumeStep_procOk (st : ConsState) (m : ConsMessage) (f : DbFaults) (c : Counters) :
    (consumeStep st m f c).procOk = (processMessage st m f c).ok := rfl

lemma processMessage_dup_state (st : ConsState) (e : ConsEvent) (f : DbFaults) (c : Counters)
    (h : e.eventID ∈ st.dedup) :
    (processMessage st (ConsMessage.valid e) f c).state = st := by
  simp only [processMessage]
  by_cases hb : f.beginFails = true
  · simp [hb]
  · simp only [Bool.not_eq_true] at hb
    by_cases hd : f.dedupExecFails = true
    · simp [hb, hd, CheckAndMarkInTx]
    · simp only [Bool.not_eq_true] at hd
      simp [hb, hd, CheckAndMarkInTx, h]

lemma consumeStep_state_warm (st : ConsState) (m : ConsMessage) (f : DbFaults) (c : Counters)
    (h : ∀ e : ConsEvent, m = ConsMessage.valid e → e.eventID ∈ st.dedup) :
    (consumeStep st m f c).state = st := by
  cases m with
  | malformed => rfl
  | valid e => exact (consumeStep_state ..).trans (processMessage_dup_state st e f c (h e rfl))

lemma consumeRun_state_warm :
    ∀ (ms : List (ConsMessage × DbFaults)) (st : ConsState) (c : Counters),
      (∀ q ∈ ms, ∀ e : ConsEvent, q.1 = ConsMessage.valid e → e.eventID ∈ st.dedup) →
      (consumeRun st ms c).1 = st := by
  intro ms
  induction ms with
  | nil => intro st c _; rfl
  | cons q rest ih =>
      intro st c h
      have hstep : (consumeStep st q.1 q.2 c).state = st :=
        consumeStep_state_warm st q.1 q.2 c (fun e he => h q (List.mem_cons_self q rest) e he)
      show (consumeRun (consumeStep st q.1 q.2 c).state rest
        (consumeStep st q.1 q.2 c).counters).1 = st
      rw [hstep]
      exact ih st _ (fun q' hq' => h q' (List.mem_cons_of_mem _ hq'))

lemma processMessage_undecodable_err (st : ConsState) (e : ConsEvent) (f : DbFaults)
    (c : Counters) (htype : e.eventType = "sum.calculated")
    (hpay : e.payload = Payload.undecodable) (hfresh : e.eventID ∉ st.dedup) :
    (processMessage st (ConsMessage.valid e) f c).ok = false ∧
    (processMessage st (ConsMessage.valid e) f c).state = st := by
  simp only [processMessage]
  by_cases hb : f.beginFails = true
  · simp [hb]
  · simp only [Bool.not_eq_true] at hb
    by_cases hd : f.dedupExecFails = true
    · simp [hb, hd, CheckAndMarkInTx]
    · simp only [Bool.not_eq_true] at hd
      simp [hb, hd, CheckAndMarkInTx, hfresh, handleEvent, htype, handleSumCalculated, hpay]

lemma redeliver_undecodable_state (st : ConsState) (e : ConsEvent) (f : DbFaults)
    (htype : e.eventType = "sum.calculated") (hpay : e.payload = Payload.undecodable)
    (hfresh : e.eventID ∉ st.dedup) :
    ∀ (n : Nat) (c : Counters), (redeliver st (ConsMessage.valid e) f c n).1 = st := by
  intro n
  induction n with
  | zero => intro c; rfl
  | succ k ih =>
      intro c
      have h := processMessage_undecodable_err st e f c htype hpay hfresh
      show (redeliver (consumeStep st (ConsMessage.valid e) f c).state
        (ConsMessage.valid e) f (consumeStep st (ConsMessage.valid e) f c).counters k).1 = st
      rw [consumeStep_state, h.2]
      exact ih _

/-! Concrete fixtures used by counterexamples and witnesses. -/

def cZero : Counters := { success := 0, error := 0, duplicate := 0 }

def stC1 : ConsState := { total := 8, dedup := [42] }

def eC1 : ConsEvent :=
  { eventID := 42, aggregateType := "sum", aggregateId := "agg-1",
    eventType := "sum.calculated",
    payload := Payload.sum { x := 5, y := 3, result := 8 },
    createdAt := 10, publishedAt := some 11 }

/-- C1.  For every fetched message whose event_id already has a dedup row,
CheckAndMarkInTx returns the 'already processed' sentinel without aborting
the caller's transaction, and the consumer then emits a duplicate counter,
returns success — so the deferred Rollback discards the (empty) transaction;
tx.Commit is never reached — the log offset is committed, and the running
total T is unchanged. -/
theorem c1_duplicate_sentinel_path (st : ConsState) (e : ConsEvent) (f : DbFaults)
    (c : Counters) (hmem : e.eventID ∈ st.dedup) (hb : f.beginFails = false)
    (hd : f.dedupExecFails = false) (ho : f.offsetCommitFails = false) :
    CheckAndMarkInTx st.dedup e.eventID f.dedupExecFails = DedupResult.alreadyProcessed ∧
    (consumeStep st (ConsMessage.valid e) f c).procOk = true ∧
    (consumeStep st (ConsMessage.valid e) f c).counters =
      { c with duplicate := c.duplicate + 1 } ∧
    (consumeStep st (ConsMessage.valid e) f c).txCommitted = false ∧
    (consumeStep st (ConsMessage.valid e) f c).offsetCommitted = true ∧
    (consumeStep st (ConsMessage.valid e) f c).state = st := by
  have hcm : CheckAndMarkInTx st.dedup e.eventID f.dedupExecFails =
      DedupResult.alreadyProcessed := by
    simp [CheckAndMarkInTx, hd, hmem]
  refine ⟨hcm, ?_⟩
  simp [consumeStep, processMessage, hb, hcm, ho]

/-- C1 counterexample: at a concrete duplicate delivery the duplicate path
returns success with the transaction opened but never committed (the
deferred Rollback runs), refuting "commits the (empty) consumer-database
transaction". -/
theorem c1_counterexample :
    (processMessage stC1 (ConsMessage.valid eC1) DbFaults.none cZero).ok = true ∧
    (processMessage stC1 (ConsMessage.valid eC1) DbFaults.none cZero).txOpened = true ∧
    (processMessage stC1 (ConsMessage.valid eC1) DbFaults.none cZero).counters.duplicate = 1 ∧
    (processMessage stC1 (ConsMessage.valid eC1) DbFaults.none cZero).txCommitted = false := by
  decide

/-- C1 witness: the amended duplicate-path theorem instantiated at the
concrete duplicate delivery. -/
theorem c1_witness :
    CheckAndMarkInTx stC1.dedup eC1.eventID DbFaults.none.dedupExecFails =
      DedupResult.alreadyProcessed ∧
    (consumeStep stC1 (ConsMessage.valid eC1) DbFaults.none cZero).procOk = true ∧
    (consumeStep stC1 (ConsMessage.valid eC1) DbFaults.none cZero).counters =
      { cZero with duplicate := cZero.duplicate + 1 } ∧
    (consumeStep stC1 (ConsMessage.valid eC1) DbFaults.none cZero).txCommitted = false ∧
    (consumeStep stC1 (ConsMessage.valid eC1) DbFaults.none cZero).offsetCommitted = true ∧
    (consumeStep stC1 (ConsMessage.valid eC1) DbFaults.none cZero).state = stC1 :=
  c1_duplicate_sentinel_path stC1 eC1 DbFaults.none cZero (by decide) rfl rfl rfl

def pC3 : SumCalculatedPayload := { x := 5, y := 3, result := 8 }

def stC3 : ConsState := { total := 100, dedup := [7] }

def eC3 : ConsEvent :=
  { eventID := 99, aggregateType := "sum", aggregateId := "agg-3",
    eventType := "sum.calculated", payload := Payload.sum pC3,
    createdAt := 10, publishedAt := some 11 }

/-- C3.  For any event observed N >= 1 times by the consumer, the running
total T is incremented by payload.result exactly once: the first successful
processing of an event_id adds payload.result to T and records the id in
the dedup store, every subsequent processing of a message with the same
event_id leaves the consumer state (in particular T) unchanged, and a
replay of any sequence of messages against a warm dedup store is a no-op
on T. -/
theorem c3_exactly_once (st : ConsState) (e : ConsEvent) (p : SumCalculatedPayload)
    (c : Counters) (htype : e.eventType = "sum.calculated")
    (hpay : e.payload = Payload.sum p) (hfresh : e.eventID ∉ st.dedup) :
    ((processMessage st (ConsMessage.valid e) DbFaults.none c).ok = true ∧
     (processMessage st (ConsMessage.valid e) DbFaults.none c).state.total =
       st.total + p.result ∧
     (processMessage st (ConsMessage.valid e) DbFaults.none c).state.dedup =
       e.eventID :: st.dedup) ∧
    (∀ (st' : ConsState) (f : DbFaults) (c' : Counters), e.eventID ∈ st'.dedup →
       (processMessage st' (ConsMessage.valid e) f c').state = st') ∧
    (∀ (ms : List (ConsMessage × DbFaults)) (st' : ConsState) (c' : Counters),
       (∀ q ∈ ms, ∀ e' : ConsEvent, q.1 = ConsMessage.valid e' → e'.eventID ∈ st'.dedup) →
       (consumeRun st' ms c').1 = st') := by
  refine ⟨?_, fun st' f c' h => processMessage_dup_state st' e f c' h,
    fun ms st' c' h => consumeRun_state_warm ms st' c' h⟩
  simp [processMessage, DbFaults.none, CheckAndMarkInTx, hfresh, handleEvent, htype,
    handleSumCalculated, hpay]

/-- C3 witness: a fresh delivery adds the payload result once, and a warm
redelivery of the same event leaves the state unchanged. -/
theorem c3_witness :
    (processMessage stC3 (ConsMessage.valid eC3) DbFaults.none cZero).state.total =
      stC3.total + pC3.result ∧
    (∀ (st' : ConsState) (f : DbFaults) (c' : Counters), eC3.eventID ∈ st'.dedup →
       (processMessage st' (ConsMessage.valid eC3) f c').state = st') :=
  ⟨(c3_exactly_once stC3 eC3 pC3 cZero rfl rfl (by decide)).1.2.1,
   (c3_exactly_once stC3 eC3 pC3 cZero rfl rfl (by decide)).2.1⟩

/-- C4.  The consumer never commits the log offset before the
consumer-database transaction has committed, unless the message was
classified duplicate or poison; and any error while beginning,
deduplicating, applying, or committing yields a non-nil return, so the
offset is not committed and the consumer state is unchanged (the
transaction rolled back, the message redelivered). -/
theorem c4_offset_discipline (st : ConsState) (m : ConsMessage) (f : DbFaults)
    (c : Counters) :
    ((consumeStep st m f c).offsetCommitted = true →
       (consumeStep st m f c).txCommitted = true ∨
       (consumeStep st m f c).counters.duplicate = c.duplicate + 1 ∨
       m = ConsMessage.malformed) ∧
    ((consumeStep st m f c).procOk = false →
       (consumeStep st m f c).offsetCommitted = false ∧
       (consumeStep st m f c).state = st) := by
  cases m with
  | malformed => simp [consumeStep, processMessage]
  | valid e =>
      simp only [consumeStep, processMessage]
      by_cases hb : f.beginFails = true
      · simp [hb]
      · simp only [Bool.not_eq_true] at hb
        rcases hcm : CheckAndMarkInTx st.dedup e.eventID f.dedupExecFails with pend | _ | _
        · rcases hhe : handleEvent e f with d | _
          · by_cases hcf : f.commitFails = true
            · simp [hb, hcm, hhe, hcf]
            · simp only [Bool.not_eq_true] at hcf
              simp [hb, hcm, hhe, hcf]
          · simp [hb, hcm, hhe]
        · simp [hb, hcm]
        · simp [hb, hcm]

def stC4 : ConsState := { total := 3, dedup := [5] }

def eC4 : ConsEvent :=
  { eventID := 6, aggregateType := "sum", aggregateId := "agg-4",
    eventType := "sum.calculated", payload := Payload.sum { x := 1, y := 1, result := 2 },
    createdAt := 0, publishedAt := none }

def fC4 : DbFaults := { DbFaults.none with commitFails := true }

/-- C4 witness: at a concrete commit failure the offset is not committed
and the consumer state is unchanged. -/
theorem c4_witness :
    (consumeStep stC4 (ConsMessage.valid eC4) fC4 cZero).offsetCommitted = false ∧
    (consumeStep stC4 (ConsMessage.valid eC4) fC4 cZero).state = stC4 :=
  (c4_offset_discipline stC4 (ConsMessage.valid eC4) fC4 cZero).2 (by decide)

/-- C5.  A fetched message whose value fails to decode as an event envelope
is treated as poison: the consumer records a failure metric, opens no
database transaction, reports success so the log offset is committed, and
the running total T is unchanged. -/
theorem c5_poison_message (st : ConsState) (f : DbFaults) (c : Counters)
    (ho : f.offsetCommitFails = false) :
    (consumeStep st ConsMessage.malformed f c).procOk = true ∧
    (consumeStep st ConsMessage.malformed f c).txOpened = false ∧
    (consumeStep st ConsMessage.malformed f c).offsetCommitted = true ∧
    (consumeStep st ConsMessage.malformed f c).state = st ∧
    (consumeStep st ConsMessage.malformed f c).counters =
      { c with error := c.error + 1 } := by
  simp [consumeStep, processMessage, ho]

/-- C5 witness: the poison path at a concrete state. -/
theorem c5_witness :
    (consumeStep stC4 ConsMessage.malformed DbFaults.none cZero).procOk = true ∧
    (consumeStep stC4 ConsMessage.malformed DbFaults.none cZero).txOpened = false ∧
    (consumeStep stC4 ConsMessage.malformed DbFaults.none cZero).offsetCommitted = true ∧
    (consumeStep stC4 ConsMessage.malformed DbFaults.none cZero).state = stC4 ∧
    (consumeStep stC4 ConsMessage.malformed DbFaults.none cZero).counters =
      { cZero with error := cZero.error + 1 } :=
  c5_poison_message stC4 DbFaults.none cZero rfl

def stC10 : ConsState := { total := 9, dedup := [1, 2] }

def eC10 : ConsEvent :=
  { eventID := 77, aggregateType := "sum", aggregateId := "agg-10",
    eventType := "sum.calculated", payload := Payload.undecodable,
    createdAt := 4, publishedAt := some 5 }

/-- C10.  A fetched message whose envelope decodes but whose payload fails
to decode as a sum.calculated payload is not treated as poison:
processMessage returns an error, the dedup insert is rolled back (the
state, including the dedup store and T, is unchanged), the log offset is
not committed, and refetching and reprocessing the same message any number
of times leaves the state unchanged — the partition stays blocked. -/
theorem c10_payload_decode_error_not_poison (st : ConsState) (e : ConsEvent) (f : DbFaults)
    (c : Counters) (n : Nat) (htype : e.eventType = "sum.calculated")
    (hpay : e.payload = Payload.undecodable) (hfresh : e.eventID ∉ st.dedup) :
    (consumeStep st (ConsMessage.valid e) f c).procOk = false ∧
    (consumeStep st (ConsMessage.valid e) f c).offsetCommitted = false ∧
    (consumeStep st (ConsMessage.valid e) f c).state = st ∧
    (redeliver st (ConsMessage.valid e) f c n).1 = st := by
  have h := processMessage_undecodable_err st e f c htype hpay hfresh
  refine ⟨(consumeStep_procOk ..).trans h.1, ?_, (consumeStep_state ..).trans h.2,
    redeliver_undecodable_state st e f htype hpay hfresh n c⟩
  show ((processMessage st (ConsMessage.valid e) f c).ok && !f.offsetCommitFails) = false
  rw [h.1]
  simp

/-- C10 witness: a concrete undecodable sum.calculated payload is retried,
not skipped, and three redeliveries leave the state unchanged. -/
theorem c10_witness :
    (consumeStep stC10 (ConsMessage.valid eC10) DbFaults.none cZero).procOk = false ∧
    (consumeStep stC10 (ConsMessage.valid eC10) DbFaults.none cZero).offsetCommitted = false ∧
    (consumeStep stC10 (ConsMessage.valid eC10) DbFaults.none cZero).state = stC10 ∧
    (redeliver stC10 (ConsMessage.valid eC10) DbFaults.none cZero 3).1 = stC10 :=
  c10_payload_decode_error_not_poison stC10 eC10 DbFaults.none cZero 3 rfl rfl (by decide)

/-! Helper lemmas about the outbox repository. -/

lemma length_filter_partition {α : Type} (p : α → Bool) :
    ∀ l : List α, (l.filter p).length + (l.filter (fun a => ! p a)).length = l.length := by
  intro l
  induction l with
  | nil => rfl
  | cons a t ih => cases hp : p a <;> simp [List.filter_cons, hp] <;> omega

lemma cleanupDeletes_iff (cutoff : Nat) (r : OutboxEvent) :
    cleanupDeletes cutoff r = true ↔ ∃ t, r.publishedAt = some t ∧ t < cutoff := by
  cases hp : r.publishedAt <;> simp [cleanupDeletes, hp]

lemma cleanupDeletes_false_iff (cutoff : Nat) (r : OutboxEvent) :
    ((! cleanupDeletes cutoff r) = true) ↔ ¬ ∃ t, r.publishedAt = some t ∧ t < cutoff := by
  cases hp : r.publishedAt <;> simp [cleanupDeletes, hp]

/-- C8.  CleanupOldEvents(retention) keeps exactly the rows that do not
satisfy "published_at IS NOT NULL AND published_at < now − retention",
returns the count of the deleted rows, and never deletes an unpublished
row (quarantined rows have published_at null, so they are never
collected). -/
theorem c8_cleanup_exact (db : OutboxDb) (now retention : Nat) :
    (∀ r : OutboxEvent,
        r ∈ (CleanupOldEvents db now retention).1 ↔
          r ∈ db ∧ ¬ ∃ t, r.publishedAt = some t ∧ t < now - retention) ∧
    (CleanupOldEvents db now retention).2 =
      (db.filter (cleanupDeletes (now - retention))).length ∧
    (CleanupOldEvents db now retention).2 +
      (CleanupOldEvents db now retention).1.length = db.length ∧
    (∀ r ∈ db, r.publishedAt = none → r ∈ (CleanupOldEvents db now retention).1) := by
  refine ⟨fun r => ?_, rfl, length_filter_partition _ db, fun r hr hp => ?_⟩
  · rw [show (CleanupOldEvents db now retention).1 =
        db.filter (fun r => ! cleanupDeletes (now - retention) r) from rfl,
      List.mem_filter]
    exact and_congr_right fun _ => cleanupDeletes_false_iff _ r
  · rw [show (CleanupOldEvents db now retention).1 =
        db.filter (fun r => ! cleanupDeletes (now - retention) r) from rfl,
      List.mem_filter]
    exact ⟨hr, by simp [cleanupDeletes, hp]⟩

def rowC8pub : OutboxEvent :=
  { id := 1, aggregateType := "sum", aggregateId := "agg-8a",
    eventType := "sum.calculated", payload := Payload.undecodable, createdAt := 1,
    publishedAt := some 3, retryCount := 0, lastError := none }

def rowC8q : OutboxEvent :=
  { id := 2, aggregateType := "sum", aggregateId := "agg-8b",
    eventType := "sum.calculated", payload := Payload.undecodable, createdAt := 1,
    publishedAt := none, retryCount := 5, lastError := some "publish failed" }

/-- C8 witness: on a table with one old published row and one quarantined
row, cleanup keeps the quarantined row and the counts balance. -/
theorem c8_witness :
    (rowC8q ∈ (CleanupOldEvents [rowC8pub, rowC8q] 100 30).1) ∧
    (CleanupOldEvents [rowC8pub, rowC8q] 100 30).2 +
      (CleanupOldEvents [rowC8pub, rowC8q] 100 30).1.length = 2 :=
  ⟨(c8_cleanup_exact [rowC8pub, rowC8q] 100 30).2.2.2 rowC8q
      (by decide) rfl,
   (c8_cleanup_exact [rowC8pub, rowC8q] 100 30).2.2.1⟩

/-- C7 amended theorem.  MarkFailed(id, msg) maps every row with the given
id to the same row with retry_count incremented by exactly 1 and the full
error message stored in last_error (no truncation), leaves every other row
untouched, deletes nothing, and never changes any row's published_at. -/
theorem c7_markFailed_rows (db : OutboxDb) (id : Nat) (msg : String) (r : OutboxEvent)
    (h : r ∈ db) :
    (MarkFailed db id msg).length = db.length ∧
    (r.id = id →
       { r with retryCount := r.retryCount + 1, lastError := some msg } ∈
         MarkFailed db id msg) ∧
    (r.id ≠ id → r ∈ MarkFailed db id msg) ∧
    (∀ s ∈ MarkFailed db id msg, ∃ r0 ∈ db, s.publishedAt = r0.publishedAt ∧
       s.id = r0.id ∧
       (r0.id = id → s.retryCount = r0.retryCount + 1 ∧ s.lastError = some msg) ∧
       (r0.id ≠ id → s = r0)) := by
  refine ⟨List.length_map .., fun hid => ?_, fun hid => ?_, fun s hs => ?_⟩
  · have h2 := List.mem_map_of_mem (fun x : OutboxEvent =>
      if x.id = id then { x with retryCount := x.retryCount + 1, lastError := some msg }
      else x) h
    simpa [MarkFailed, hid] using h2
  · have h2 := List.mem_map_of_mem (fun x : OutboxEvent =>
      if x.id = id then { x with retryCount := x.retryCount + 1, lastError := some msg }
      else x) h
    simpa [MarkFailed, hid] using h2
  · obtain ⟨r0, hr0, hg⟩ := List.mem_map.1 hs
    refine ⟨r0, hr0, ?_⟩
    by_cases h0 : r0.id = id
    · rw [if_pos h0] at hg
      subst hg
      exact ⟨rfl, rfl, fun _ => ⟨rfl, rfl⟩, fun hne => absurd h0 hne⟩
    · rw [if_neg h0] at hg
      subst hg
      exact ⟨rfl, rfl, fun heq => absurd heq h0, fun _ => rfl⟩

def longErr : String := String.mk (List.replicate 2000 'a')

def rowC7 : OutboxEvent :=
  { id := 1, aggregateType := "sum", aggregateId := "agg-7",
    eventType := "sum.calculated", payload := Payload.undecodable, createdAt := 0,
    publishedAt := none, retryCount := 4, lastError := none }

/-- C7 counterexample: a 2000-character error message is stored in
last_error verbatim, refuting "stores the error tail truncated to a safe
length"; retry_count is incremented and published_at stays null. -/
theorem c7_counterexample :
    MarkFailed [rowC7] 1 longErr =
      [{ rowC7 with retryCount := 5, lastError := some longErr }] ∧
    longErr.length = 2000 := by
  constructor
  · simp [MarkFailed, rowC7]
  · rw [show longErr.length = (List.replicate 2000 'a').length from rfl,
      List.length_replicate]

/-- C7 witness: the amended MarkFailed theorem at a concrete row. -/
theorem c7_witness :
    { rowC7 with retryCount := rowC7.retryCount + 1, lastError := some longErr } ∈
      MarkFailed [rowC7] 1 longErr ∧
    (MarkFailed [rowC7] 1 longErr).length = 1 :=
  ⟨(c7_markFailed_rows [rowC7] 1 longErr rowC7 (by decide)).2.1 rfl,
   (c7_markFailed_rows [rowC7] 1 longErr rowC7 (by decide)).1⟩

/-- C2 amended theorem.  For every relay event attempted within its retry
budget: PublishEvent sets published_at on the in-memory event to the
current instant read inside PublishEvent, before the log write, and the
serialized message carries exactly that instant; on publish success the
relay calls MarkPublished(id), which stamps the row with a separate
current instant read inside MarkPublished — MarkPublished takes no
timestamp argument, so the row's timestamp is not the serialized one. -/
theorem c2_publish_and_mark_timestamps (env : RelayEnv) (maxRetries : Nat)
    (acc : BatchState) (e : OutboxEvent) (hretry : e.retryCount < maxRetries)
    (hok : env.pubOk e.id = true) :
    (PublishEvent e (env.pubTime e.id) (env.pubOk e.id)).1.publishedAt =
      some (env.pubTime e.id) ∧
    (PublishEvent e (env.pubTime e.id) (env.pubOk e.id)).2.1 =
      some (toWire { e with publishedAt := some (env.pubTime e.id) }) ∧
    (toWire { e with publishedAt := some (env.pubTime e.id) }).publishedAt =
      some (env.pubTime e.id) ∧
    processRow env maxRetries acc e =
      { db := MarkPublished acc.db e.id (env.markTime e.id),
        published := acc.published ++
          [toWire { e with publishedAt := some (env.pubTime e.id) }],
        attempts := acc.attempts ++ [e.id] } ∧
    (∀ r ∈ acc.db, r.id = e.id →
        { r with publishedAt := some (env.markTime e.id) } ∈
          MarkPublished acc.db e.id (env.markTime e.id)) := by
  have hq : ¬ maxRetries ≤ e.retryCount := not_le.mpr hretry
  refine ⟨by simp [PublishEvent], by simp [PublishEvent, hok], rfl,
    by simp [processRow, hq, PublishEvent, hok], fun r hr hid => ?_⟩
  have h2 := List.mem_map_of_mem (fun x : OutboxEvent =>
    if x.id = e.id then { x with publishedAt := some (env.markTime e.id) } else x) hr
  simpa [MarkPublished, hid] using h2

def rowC2 : OutboxEvent :=
  { id := 1, aggregateType := "sum", aggregateId := "agg-2",
    eventType := "sum.calculated",
    payload := Payload.sum { x := 1, y := 2, result := 3 }, createdAt := 0,
    publishedAt := none, retryCount := 0, lastError := none }

def envC2 : RelayEnv :=
  { pubOk := fun _ => true, errMsg := fun _ => "", pubTime := fun _ => 5,
    markTime := fun _ => 7 }

def cfgC2 : RelayConfig := { batchSize := 100, maxRetries := 5 }

/-- C2 counterexample: in a concrete successful batch the serialized
message carries published_at = 5 (the instant read inside PublishEvent)
while MarkPublished stamps the outbox row with 7 (the instant read inside
MarkPublished), refuting "MarkPublished records that same timestamp". -/
theorem c2_counterexample :
    (processBatch envC2 cfgC2 [rowC2]).published.map WireMessage.publishedAt =
      [some 5] ∧
    (processBatch envC2 cfgC2 [rowC2]).db.map OutboxEvent.publishedAt = [some 7] := by
  decide

/-- C2 witness: the amended timestamp theorem at the concrete batch row. -/
theorem c2_witness :
    processRow envC2 5 { db := [rowC2], published := [], attempts := [] } rowC2 =
      { db := MarkPublished [rowC2] rowC2.id (envC2.markTime rowC2.id),
        published := [] ++ [toWire { rowC2 with publishedAt := some (envC2.pubTime rowC2.id) }],
        attempts := [] ++ [rowC2.id] } :=
  (c2_publish_and_mark_timestamps envC2 5
    { db := [rowC2], published := [], attempts := [] } rowC2 (by decide) rfl).2.2.2.1

/-! Outbox row invariants (spec section 3). -/

/-- Clock invariant of one outbox row: created_at ≤ published_at whenever
the latter is set. -/
abbrev rowTimeOk (r : OutboxEvent) : Bool :=
  match r.publishedAt with
  | some t => r.createdAt ≤ t
  | none => true

/-- Clock invariant over a whole outbox table. -/
abbrev dbTimeInv (db : OutboxDb) : Prop := ∀ r ∈ db, rowTimeOk r = true

/-- Two-state property of an outbox operation taking db to db2: once a
row's published_at is non-null it is never cleared back to null. -/
abbrev publishedStays (db db2 : OutboxDb) : Prop :=
  ∀ r2 ∈ db2, ∀ r ∈ db, r2.id = r.id → r.publishedAt ≠ none → r2.publishedAt ≠ none

lemma id_inj_of_nodup {db : OutboxDb} (hn : (db.map OutboxEvent.id).Nodup)
    {a b : OutboxEvent} (ha : a ∈ db) (hb : b ∈ db) (hid : a.id = b.id) : a = b :=
  List.inj_on_of_nodup_map hn ha hb hid

lemma mem_fetchUnpublished {db : OutboxDb} {k : Nat} {r : OutboxEvent}
    (h : r ∈ FetchUnpublished db k) : r ∈ db ∧ r.publishedAt = none := by
  have h1 := List.mem_of_mem_take h
  rw [List.mem_insertionSort] at h1
  have h2 := List.mem_filter.1 h1
  exact ⟨h2.1, by simpa using h2.2⟩

lemma mem_markPublished_shape {db : OutboxDb} {id now : Nat} {s : OutboxEvent}
    (h : s ∈ MarkPublished db id now) :
    ∃ r0 ∈ db, s.id = r0.id ∧
      ((r0.id = id ∧ s = { r0 with publishedAt := some now }) ∨
       (r0.id ≠ id ∧ s = r0)) := by
  obtain ⟨r0, hr0, hg⟩ := List.mem_map.1 h
  by_cases h0 : r0.id = id
  · rw [if_pos h0] at hg
    exact ⟨r0, hr0, by rw [← hg], Or.inl ⟨h0, hg.symm⟩⟩
  · rw [if_neg h0] at hg
    exact ⟨r0, hr0, by rw [← hg], Or.inr ⟨h0, hg.symm⟩⟩

lemma mem_markFailed_shape {db : OutboxDb} {id : Nat} {msg : String} {s : OutboxEvent}
    (h : s ∈ MarkFailed db id msg) :
    ∃ r0 ∈ db, s.id = r0.id ∧
      ((r0.id = id ∧
          s = { r0 with retryCount := r0.retryCount + 1, lastError := some msg }) ∨
       (r0.id ≠ id ∧ s = r0)) := by
  obtain ⟨r0, hr0, hg⟩ := List.mem_map.1 h
  by_cases h0 : r0.id = id
  · rw [if_pos h0] at hg
    exact ⟨r0, hr0, by rw [← hg], Or.inl ⟨h0, hg.symm⟩⟩
  · rw [if_neg h0] at hg
    exact ⟨r0, hr0, by rw [← hg], Or.inr ⟨h0, hg.symm⟩⟩

/-- C9.  Every outbox-store operation (InsertInTx, FetchUnpublished,
MarkPublished, MarkFailed, CleanupOldEvents) preserves the event-row
invariant: created_at ≤ published_at whenever published_at is set
(assuming the clock reads after all creations), and once published_at is
non-null it is never cleared back to null; FetchUnpublished is read-only
and returns only unpublished rows of the table. -/
theorem c9_outbox_invariants (db : OutboxDb) (id newId : Nat)
    (agType agId evType : String) (pl : Payload) (tc now retention k : Nat)
    (msg : String) (hn : (db.map OutboxEvent.id).Nodup) (hinv : dbTimeInv db)
    (hfresh : ∀ r ∈ db, r.id ≠ newId) (hclock : ∀ r ∈ db, r.createdAt ≤ now) :
    (dbTimeInv (InsertInTx db newId agType agId evType pl tc) ∧
       publishedStays db (InsertInTx db newId agType agId evType pl tc)) ∧
    (∀ r ∈ FetchUnpublished db k, r ∈ db ∧ r.publishedAt = none) ∧
    (dbTimeInv (MarkPublished db id now) ∧
       publishedStays db (MarkPublished db id now)) ∧
    (dbTimeInv (MarkFailed db id msg) ∧ publishedStays db (MarkFailed db id msg)) ∧
    (dbTimeInv (CleanupOldEvents db now retention).1 ∧
       publishedStays db (CleanupOldEvents db now retention).1) := by
  refine ⟨⟨?_, ?_⟩, fun r hr => mem_fetchUnpublished hr, ⟨?_, ?_⟩, ⟨?_, ?_⟩, ⟨?_, ?_⟩⟩
  · intro r hr
    rcases List.mem_append.1 hr with hl | hr2
    · exact hinv r hl
    · rcases List.mem_singleton.1 hr2 with rfl
      rfl
  · intro r2 h2 r hr hid hpub
    rcases List.mem_append.1 h2 with hl | hr2
    · rw [id_inj_of_nodup hn hl hr hid]
      exact hpub
    · rcases List.mem_singleton.1 hr2 with rfl
      exact absurd hid.symm (hfresh r hr)
  · intro s hs
    obtain ⟨r0, hr0, _, hcase⟩ := mem_markPublished_shape hs
    rcases hcase with ⟨_, heq⟩ | ⟨_, heq⟩
    · rw [heq]
      exact decide_eq_true (hclock r0 hr0)
    · rw [heq]
      exact hinv r0 hr0
  · intro r2 h2 r hr hid hpub
    obtain ⟨r0, hr0, hid0, hcase⟩ := mem_markPublished_shape h2
    rcases hcase with ⟨_, heq⟩ | ⟨_, heq⟩
    · rw [heq]
      exact Option.some_ne_none now
    · have h3 : r0 = r := id_inj_of_nodup hn hr0 hr (hid0.symm.trans hid)
      rw [heq, h3]
      exact hpub
  · intro s hs
    obtain ⟨r0, hr0, _, hcase⟩ := mem_markFailed_shape hs
    rcases hcase with ⟨_, heq⟩ | ⟨_, heq⟩
    · rw [heq]
      exact hinv r0 hr0
    · rw [heq]
      exact hinv r0 hr0
  · intro r2 h2 r hr hid hpub
    obtain ⟨r0, hr0, hid0, hcase⟩ := mem_markFailed_shape h2
    rcases hcase with ⟨_, heq⟩ | ⟨_, heq⟩
    · have h3 : r0 = r := id_inj_of_nodup hn hr0 hr (hid0.symm.trans hid)
      rw [heq]
      show r0.publishedAt ≠ none
      rw [h3]
      exact hpub
    · have h3 : r0 = r := id_inj_of_nodup hn hr0 hr (hid0.symm.trans hid)
      rw [heq, h3]
      exact hpub
  · intro s hs
    exact hinv s (List.mem_filter.1 hs).1
  · intro r2 h2 r hr hid hpub
    rw [id_inj_of_nodup hn (List.mem_filter.1 h2).1 hr hid]
    exact hpub

def rowC9 : OutboxEvent :=
  { id := 1, aggregateType := "sum", aggregateId := "agg-9",
    eventType := "sum.calculated", payload := Payload.undecodable, createdAt := 2,
    publishedAt := some 3, retryCount := 0, lastError := none }

/-- C9 witness: the invariance theorem at a concrete one-row table. -/
theorem c9_witness :
    dbTimeInv (MarkPublished [rowC9] 1 10) ∧
    publishedStays [rowC9] (MarkPublished [rowC9] 1 10) :=
  (c9_outbox_invariants [rowC9] 1 2 "sum" "agg-x" "sum.calculated"
    Payload.undecodable 4 10 7 5 "boom" (by decide) (by decide) (by decide)
    (by decide)).2.2.1

/-! Relay batch lemmas for the quarantine and retry behaviour. -/

/-- Repeated relay ticks: what the outbox table looks like after n runs of
processBatch. -/
def relayTicks (env : RelayEnv) (cfg : RelayConfig) : Nat → OutboxDb → OutboxDb
  | 0, db => db
  | n + 1, db => relayTicks env cfg n (processBatch env cfg db).db

lemma mem_markPublished_of_ne {db : OutboxDb} {id now : Nat} {r : OutboxEvent}
    (h : r ∈ db) (hne : r.id ≠ id) : r ∈ MarkPublished db id now := by
  have h2 := List.mem_map_of_mem (fun x : OutboxEvent =>
    if x.id = id then { x with publishedAt := some now } else x) h
  simpa [MarkPublished, hne] using h2

lemma mem_markFailed_of_ne {db : OutboxDb} {id : Nat} {msg : String} {r : OutboxEvent}
    (h : r ∈ db) (hne : r.id ≠ id) : r ∈ MarkFailed db id msg := by
  have h2 := List.mem_map_of_mem (fun x : OutboxEvent =>
    if x.id = id then { x with retryCount := x.retryCount + 1, lastError := some msg }
    else x) h
  simpa [MarkFailed, hne] using h2

lemma processRow_skip (env : RelayEnv) (m : Nat) (acc : BatchState) (e : OutboxEvent)
    (hq : m ≤ e.retryCount) : processRow env m acc e = acc := by
  simp [processRow, hq]

lemma processRow_fail (env : RelayEnv) (m : Nat) (acc : BatchState) (e : OutboxEvent)
    (hq : ¬ m ≤ e.retryCount) (hpub : env.pubOk e.id = false) :
    processRow env m acc e =
      { db := MarkFailed acc.db e.id (env.errMsg e.id), published := acc.published,
        attempts := acc.attempts ++ [e.id] } := by
  simp [processRow, hq, PublishEvent, hpub]

lemma processRow_publish (env : RelayEnv) (m : Nat) (acc : BatchState) (e : OutboxEvent)
    (hq : ¬ m ≤ e.retryCount) (hpub : env.pubOk e.id = true) :
    processRow env m acc e =
      { db := MarkPublished acc.db e.id (env.markTime e.id),
        published := acc.published ++
          [toWire { e with publishedAt := some (env.pubTime e.id) }],
        attempts := acc.attempts ++ [e.id] } := by
  simp [processRow, hq, PublishEvent, hpub]

lemma foldl_processRow_quarantine (env : RelayEnv) (m : Nat) (r : OutboxEvent) :
    ∀ (l : List OutboxEvent) (acc : BatchState),
      r ∈ acc.db → r.id ∉ acc.attempts →
      (∀ e ∈ l, e.id = r.id → m ≤ e.retryCount) →
      r ∈ (l.foldl (processRow env m) acc).db ∧
      r.id ∉ (l.foldl (processRow env m) acc).attempts := by
  intro l
  induction l with
  | nil => intro acc h1 h2 _; exact ⟨h1, h2⟩
  | cons e t ih =>
      intro acc h1 h2 h3
      rw [List.foldl_cons]
      by_cases hq : m ≤ e.retryCount
      · rw [processRow_skip env m acc e hq]
        exact ih acc h1 h2 (fun e' he' => h3 e' (List.mem_cons_of_mem _ he'))
      · have hne : e.id ≠ r.id := fun hid => hq (h3 e (List.mem_cons_self e t) hid)
        have hne' : r.id ≠ e.id := fun h => hne h.symm
        have hrest : ∀ e' ∈ t, e'.id = r.id → m ≤ e'.retryCount :=
          fun e' he' => h3 e' (List.mem_cons_of_mem _ he')
        cases hpub : env.pubOk e.id with
        | false =>
            rw [processRow_fail env m acc e hq hpub]
            refine ih _ (mem_markFailed_of_ne h1 hne') ?_ hrest
            simp only [List.mem_append, List.mem_singleton]
            exact fun hc => hc.elim h2 hne'
        | true =>
            rw [processRow_publish env m acc e hq hpub]
            refine ih _ (mem_markPublished_of_ne h1 hne') ?_ hrest
            simp only [List.mem_append, List.mem_singleton]
            exact fun hc => hc.elim h2 hne'

lemma foldl_processRow_attempts_mono (env : RelayEnv) (m : Nat) (a : Nat) :
    ∀ (l : List OutboxEvent) (acc : BatchState), a ∈ acc.attempts →
      a ∈ (l.foldl (processRow env m) acc).attempts := by
  intro l
  induction l with
  | nil => intro acc h; exact h
  | cons e t ih =>
      intro acc h
      rw [List.foldl_cons]
      apply ih
      by_cases hq : m ≤ e.retryCount
      · rw [processRow_skip env m acc e hq]; exact h
      · cases hpub : env.pubOk e.id with
        | false =>
            rw [processRow_fail env m acc e hq hpub]
            exact List.mem_append_left _ h
        | true =>
            rw [processRow_publish env m acc e hq hpub]
            exact List.mem_append_left _ h

lemma foldl_processRow_attempted (env : RelayEnv) (m : Nat) :
    ∀ (l : List OutboxEvent) (acc : BatchState) (e : OutboxEvent), e ∈ l →
      e.retryCount < m → e.id ∈ (l.foldl (processRow env m) acc).attempts := by
  intro l
  induction l with
  | nil => intro acc e h; cases h
  | cons e0 t ih =>
      intro acc e h hlt
      rw [List.foldl_cons]
      rcases List.mem_cons.1 h with rfl | ht
      · apply foldl_processRow_attempts_mono
        have hq : ¬ m ≤ e.retryCount := not_le.mpr hlt
        cases hpub : env.pubOk e.id with
        | false =>
            rw [processRow_fail env m acc e hq hpub]
            exact List.mem_append_right _ (List.mem_singleton_self _)
        | true =>
            rw [processRow_publish env m acc e hq hpub]
            exact List.mem_append_right _ (List.mem_singleton_self _)
      · exact ih _ e ht hlt

lemma foldl_processRow_db_length (env : RelayEnv) (m : Nat) :
    ∀ (l : List OutboxEvent) (acc : BatchState),
      ((l.foldl (processRow env m) acc).db).length = acc.db.length := by
  intro l
  induction l with
  | nil => intro acc; rfl
  | cons e t ih =>
      intro acc
      rw [List.foldl_cons]
      by_cases hq : m ≤ e.retryCount
      · rw [processRow_skip env m acc e hq]
        exact ih acc
      · cases hpub : env.pubOk e.id with
        | false =>
            rw [processRow_fail env m acc e hq hpub, ih]
            simp [MarkFailed]
        | true =>
            rw [processRow_publish env m acc e hq hpub, ih]
            simp [MarkPublished]

def rowC6a : OutboxEvent :=
  { id := 1, aggregateType := "sum", aggregateId := "agg-6a",
    eventType := "sum.calculated",
    payload := Payload.sum { x := 1, y := 1, result := 2 }, createdAt := 1,
    publishedAt := none, retryCount := 0, lastError := none }

def rowC6b : OutboxEvent :=
  { id := 2, aggregateType := "sum", aggregateId := "agg-6b",
    eventType := "sum.calculated",
    payload := Payload.sum { x := 2, y := 2, result := 4 }, createdAt := 2,
    publishedAt := none, retryCount := 0, lastError := none }

def envC6 : RelayEnv :=
  { pubOk := fun i => i != 1, errMsg := fun _ => "publish failed",
    pubTime := fun _ => 50, markTime := fun _ => 60 }

def cfgC6 : RelayConfig := { batchSize := 100, maxRetries := 5 }

/-- C6.  In each relay batch every event with retry_count >= max_retries is
skipped: it stays in the table unchanged, nothing is deleted from the
table, and the publisher is never called for it; a publish failure turns
into MarkFailed for that event and the loop continues, attempting every
other in-budget row of the batch; concretely, after five consecutive
publish failures of one event under max_retries = 5, its row remains with
retry_count = 5, published_at null and last_error populated, the next
batch attempts nothing for it, and the other event was published. -/
theorem c6_quarantine_and_failure_path (env : RelayEnv) (cfg : RelayConfig)
    (db : OutboxDb) (hn : (db.map OutboxEvent.id).Nodup) :
    (∀ r ∈ db, cfg.maxRetries ≤ r.retryCount →
        r ∈ (processBatch env cfg db).db ∧
        r.id ∉ (processBatch env cfg db).attempts) ∧
    (processBatch env cfg db).db.length = db.length ∧
    (∀ (acc : BatchState) (e : OutboxEvent), e.retryCount < cfg.maxRetries →
        env.pubOk e.id = false →
        processRow env cfg.maxRetries acc e =
          { db := MarkFailed acc.db e.id (env.errMsg e.id),
            published := acc.published, attempts := acc.attempts ++ [e.id] }) ∧
    (∀ e ∈ FetchUnpublished db cfg.batchSize, e.retryCount < cfg.maxRetries →
        e.id ∈ (processBatch env cfg db).attempts) ∧
    (relayTicks envC6 cfgC6 5 [rowC6a, rowC6b] =
        [{ rowC6a with retryCount := 5, lastError := some "publish failed" },
         { rowC6b with publishedAt := some 60 }] ∧
      (processBatch envC6 cfgC6 (relayTicks envC6 cfgC6 5 [rowC6a, rowC6b])).attempts =
        []) := by
  refine ⟨fun r hr hq => ?_, foldl_processRow_db_length env cfg.maxRetries _ _,
    fun acc e hlt hpub => processRow_fail env cfg.maxRetries acc e (not_le.mpr hlt) hpub,
    fun e he hlt => foldl_processRow_attempted env cfg.maxRetries _ _ e he hlt,
    by decide⟩
  have hbatch : ∀ e ∈ FetchUnpublished db cfg.batchSize, e.id = r.id →
      cfg.maxRetries ≤ e.retryCount := by
    intro e he hid
    rw [id_inj_of_nodup hn (mem_fetchUnpublished he).1 hr hid]
    exact hq
  exact foldl_processRow_quarantine env cfg.maxRetries r
    (FetchUnpublished db cfg.batchSize) { db := db, published := [], attempts := [] }
    hr (by simp) hbatch

def rowC6q : OutboxEvent := { rowC6a with retryCount := 5 }

/-- C6 witness: a concrete quarantined row survives the batch untouched and
is never attempted. -/
theorem c6_witness :
    rowC6q ∈ (processBatch envC6 cfgC6 [rowC6q, rowC6b]).db ∧
    rowC6q.id ∉ (processBatch envC6 cfgC6 [rowC6q, rowC6b]).attempts :=
  (c6_quarantine_and_failure_path envC6 cfgC6 [rowC6q, rowC6b] (by decide)).1
    rowC6q (by decide) (by decide)

end Sumflow
